import Mathlib

/-!
Shallow embedding of the bank-branches catalog service (`app/crud.py`,
`app/main.py`, `scripts/load_data.py`) together with proofs of the
specification claims about it.

Conventions of the embedding:
* the relational store is a pair of lists (`banks`, `branches`);
* SQL `lower`/Python `str.lower` become a character-wise `Char.toLower` map;
* SQL `column ILIKE '%term%'` becomes a case-insensitive substring test,
  with `NULL` columns never matching (as in SQL three-valued logic);
* Python optional arguments become `Option` values, and the source's
  `if arg:` truthiness tests are modelled exactly (`None`, `0`, `""` are
  all falsy);
* `query.offset(skip).limit(limit)` becomes `drop skip` then an optional
  `take`, where `limit = none` models SQLAlchemy's `.limit(None)`.
-/

namespace BankApi

/-- Lowercase a string character-wise (model of SQL `lower` / Python `str.lower`
on the basic-latin alphabet). -/
def lowerStr (s : String) : String :=
  String.mk (s.toList.map Char.toLower)

/-- Uppercase a string character-wise (model of Python `str.upper`). -/
def upperStr (s : String) : String :=
  String.mk (s.toList.map Char.toUpper)

/-- Case-insensitive substring test: model of `column ILIKE '%needle%'`
for a non-null column value `hay`. -/
def ciContains (hay needle : String) : Bool :=
  decide ((lowerStr needle).toList <:+: (lowerStr hay).toList)

/-- `ILIKE` against a nullable column: a stored `NULL` never matches. -/
def ciLike (field : Option String) (needle : String) : Bool :=
  match field with
  | none => false
  | some f => ciContains f needle

/-- Case-insensitive exact equality against a nullable column
(model of `func.lower(column) == value.lower()`): `NULL` never matches. -/
def ciFieldEq (field : Option String) (v : String) : Bool :=
  match field with
  | none => false
  | some f => decide (lowerStr f = lowerStr v)

/-- Python truthiness of an optional integer argument: `None` and `0` are falsy. -/
def optIntTruthy : Option Int → Bool
  | none => false
  | some i => decide (i ≠ 0)

/-- Python truthiness of an optional string argument: `None` and `""` are falsy. -/
def optStrTruthy : Option String → Bool
  | none => false
  | some s => decide (s ≠ "")

/-- `app/models.py` `Bank`: externally assigned integer id and a name. -/
structure Bank where
  id : Int
  name : String
deriving DecidableEq

/-- `app/models.py` `Branch`: IFSC primary key, bank foreign key and
nullable descriptive columns. -/
structure Branch where
  ifsc : String
  bank_id : Int
  branch : Option String
  address : Option String
  city : Option String
  district : Option String
  state : Option String
deriving DecidableEq

/-- The relational store: the two tables. -/
structure DB where
  banks : List Bank
  branches : List Branch
deriving DecidableEq

/-- `offset(skip).limit(limit)` applied to a result list; `none` is
SQLAlchemy's `.limit(None)` (no limit). -/
def applyPage {α : Type} (skip : Nat) (limit : Option Nat) (l : List α) : List α :=
  match limit with
  | none => l.drop skip
  | some n => (l.drop skip).take n

namespace Crud

/-- The filter predicate accumulated by `crud.get_branches` lines 127-154:
each optional argument adds its clause only when truthy. -/
def branchQueryPred (banks : List Bank) (bank_id : Option Int)
    (bank_name city district state search : Option String) (b : Branch) : Bool :=
  (!optIntTruthy bank_id || decide (b.bank_id = bank_id.getD 0)) &&
  (!optStrTruthy bank_name ||
    banks.any (fun bk =>
      decide (bk.id = b.bank_id) && decide (lowerStr bk.name = lowerStr (bank_name.getD "")))) &&
  (!optStrTruthy city || ciFieldEq b.city (city.getD "")) &&
  (!optStrTruthy district || ciFieldEq b.district (district.getD "")) &&
  (!optStrTruthy state || ciFieldEq b.state (state.getD "")) &&
  (!optStrTruthy search ||
    (ciLike b.branch (search.getD "") ||
     ciLike b.address (search.getD "") ||
     ciContains b.ifsc (search.getD "")))

/-- The filter predicate accumulated by `crud.get_branches_count` lines 183-210
(the source duplicates the chain of `crud.get_branches`). -/
def branchCountPred (banks : List Bank) (bank_id : Option Int)
    (bank_name city district state search : Option String) (b : Branch) : Bool :=
  (!optIntTruthy bank_id || decide (b.bank_id = bank_id.getD 0)) &&
  (!optStrTruthy bank_name ||
    banks.any (fun bk =>
      decide (bk.id = b.bank_id) && decide (lowerStr bk.name = lowerStr (bank_name.getD "")))) &&
  (!optStrTruthy city || ciFieldEq b.city (city.getD "")) &&
  (!optStrTruthy district || ciFieldEq b.district (district.getD "")) &&
  (!optStrTruthy state || ciFieldEq b.state (state.getD "")) &&
  (!optStrTruthy search ||
    (ciLike b.branch (search.getD "") ||
     ciLike b.address (search.getD "") ||
     ciContains b.ifsc (search.getD "")))

/-- `crud.get_branches`: filter, then offset/limit. -/
def get_branches (db : DB) (skip : Nat) (limit : Option Nat) (bank_id : Option Int)
    (bank_name city district state search : Option String) : List Branch :=
  applyPage skip limit
    (db.branches.filter (branchQueryPred db.banks bank_id bank_name city district state search))

/-- `crud.get_branches_count`: the same filters, then `count`. -/
def get_branches_count (db : DB) (bank_id : Option Int)
    (bank_name city district state search : Option String) : Nat :=
  (db.branches.filter (branchCountPred db.banks bank_id bank_name city district state search)).length

/-- The search filter of `crud.get_banks` lines 58-59 (`name ILIKE '%search%'`
applied only when `search` is truthy). -/
def bankSearchPred (search : Option String) (bk : Bank) : Bool :=
  !optStrTruthy search || ciContains bk.name (search.getD "")

/-- `crud.get_banks`: optional name search, then offset/limit. -/
def get_banks (db : DB) (skip : Nat) (limit : Nat) (search : Option String) : List Bank :=
  (db.banks.filter (bankSearchPred search)).drop skip |>.take limit

/-- `crud.get_banks_count`. -/
def get_banks_count (db : DB) (search : Option String) : Nat :=
  (db.banks.filter (fun bk => !optStrTruthy search || ciContains bk.name (search.getD ""))).length

/-- `crud.get_branch`: uppercase the input, then return the first branch
whose IFSC equals it. -/
def get_branch (db : DB) (ifsc : String) : Option Branch :=
  db.branches.find? (fun b => decide (b.ifsc = upperStr ifsc))

/-- `crud.get_bank`. -/
def get_bank (db : DB) (bank_id : Int) : Option Bank :=
  db.banks.find? (fun bk => decide (bk.id = bank_id))

end Crud

/-- Outcome classes surfaced by the HTTP boundary in `app/main.py`:
parameter validation failures (400/422) and missing records (404). -/
inductive ApiError where
  | validation : String → ApiError
  | notFound : String → ApiError
deriving DecidableEq

namespace Api

/-- `main.list_branches` (GET `/api/branches`): `page ≥ 1`,
`0 ≤ page_size ≤ 1000` enforced by the `Query` declarations; `page_size == 0`
becomes `skip = 0, limit = None`; otherwise `skip = (page-1)*page_size`,
`limit = page_size`. -/
def list_branches (db : DB) (page page_size : Int) (bank_id : Option Int)
    (bank_name city district state search : Option String) :
    Except ApiError (List Branch) :=
  if page < 1 then Except.error (ApiError.validation "page must be at least 1")
  else if page_size < 0 then Except.error (ApiError.validation "page_size must be at least 0")
  else if 1000 < page_size then Except.error (ApiError.validation "page_size must be at most 1000")
  else if page_size = 0 then
    Except.ok (Crud.get_branches db 0 none bank_id bank_name city district state search)
  else
    Except.ok (Crud.get_branches db ((page - 1) * page_size).toNat (some page_size.toNat)
      bank_id bank_name city district state search)

/-- `main.list_banks` (GET `/api/banks`): `page ≥ 1`, `1 ≤ page_size ≤ 100`
enforced by the `Query` declarations; `skip = (page-1)*page_size`,
`limit = page_size` unconditionally (no unbounded sentinel). -/
def list_banks (db : DB) (page page_size : Int) (search : Option String) :
    Except ApiError (List Bank) :=
  if page < 1 then Except.error (ApiError.validation "page must be at least 1")
  else if page_size < 1 then Except.error (ApiError.validation "page_size must be at least 1")
  else if 100 < page_size then Except.error (ApiError.validation "page_size must be at most 100")
  else Except.ok (Crud.get_banks db ((page - 1) * page_size).toNat page_size.toNat search)

/-- `main.get_branch` (GET `/api/branches/{ifsc}`): reject non-11-character
inputs before the lookup; a missed lookup becomes 404. -/
def get_branch (db : DB) (ifsc : String) : Except ApiError Branch :=
  if ifsc.length ≠ 11 then
    Except.error (ApiError.validation "IFSC code must be exactly 11 characters")
  else
    match Crud.get_branch db ifsc with
    | none => Except.error (ApiError.notFound "Branch not found")
    | some b => Except.ok b

end Api

namespace Ingest

/-- One parsed row of the source CSV (`scripts/load_data.py`): the
`pd.notna` checks of lines 114-118 map missing text cells to `none`. -/
structure CsvRow where
  ifsc : String
  bank_id : Int
  bank_name : String
  branch : Option String
  address : Option String
  city : Option String
  district : Option String
  state : Option String
deriving DecidableEq

/-- Line 111-119 of `load_data.py`: build the `Branch` record from a row. -/
def rowToBranch (r : CsvRow) : Branch :=
  { ifsc := r.ifsc, bank_id := r.bank_id, branch := r.branch, address := r.address,
    city := r.city, district := r.district, state := r.state }

/-- `df.drop_duplicates(subset=['ifsc'], keep='first')`, with the set of
already seen IFSCs as accumulator. -/
def dropDupIfscAux : List CsvRow → List String → List CsvRow
  | [], _ => []
  | r :: rs, seen =>
    if r.ifsc ∈ seen then dropDupIfscAux rs seen
    else r :: dropDupIfscAux rs (r.ifsc :: seen)

/-- In-file deduplication by IFSC, first occurrence wins (line 47). -/
def dedupByIfsc (rows : List CsvRow) : List CsvRow :=
  dropDupIfscAux rows []

/-- `df[['bank_id','bank_name']].drop_duplicates()` (line 62): distinct
`(id, name)` pairs, first occurrence first. -/
def distinctPairsAux : List CsvRow → List (Int × String) → List (Int × String)
  | [], _ => []
  | r :: rs, seen =>
    if (r.bank_id, r.bank_name) ∈ seen then distinctPairsAux rs seen
    else (r.bank_id, r.bank_name) :: distinctPairsAux rs ((r.bank_id, r.bank_name) :: seen)

def distinctBankPairs (rows : List CsvRow) : List (Int × String) :=
  distinctPairsAux rows []

/-- Insertion step of the sort modelling `banks_df.sort_values('id')`. -/
def insertById (p : Int × String) : List (Int × String) → List (Int × String)
  | [] => [p]
  | q :: qs => if p.1 ≤ q.1 then p :: q :: qs else q :: insertById p qs

/-- Sort the bank pairs by id (line 64). -/
def sortById (l : List (Int × String)) : List (Int × String) :=
  l.foldr insertById []

/-- Mutable state of the branch-loading loop of lines 98-150: the known-IFSC
set, the staged batch, how many commit attempts happened, running inserted
and skipped counts, and the branches table contents. -/
structure IngestState where
  existing : List String
  staged : List CsvRow
  batchIdx : Nat
  inserted : Nat
  skipped : Nat
  stored : List Branch
deriving DecidableEq

/-- One `db.execute(insert); db.commit()` attempt (lines 125-137 and 141-150).
`fail` is the oracle saying whether the k-th commit raises; on failure the
transaction is rolled back — the staged rows are dropped and nothing is
counted — and control returns to the loop. -/
def commitBatch (fail : Nat → Bool) (st : IngestState) : IngestState :=
  if fail st.batchIdx then
    { st with staged := [], batchIdx := st.batchIdx + 1 }
  else
    { st with stored := st.stored ++ st.staged.map rowToBranch,
              inserted := st.inserted + st.staged.length,
              staged := [], batchIdx := st.batchIdx + 1 }

/-- The row loop of lines 103-137: skip rows whose IFSC is already known,
stage the rest, and commit whenever the staged batch reaches `batch_size`. -/
def ingestLoop (fail : Nat → Bool) (batch_size : Nat) :
    List CsvRow → IngestState → IngestState
  | [], st => st
  | r :: rs, st =>
    if r.ifsc ∈ st.existing then
      ingestLoop fail batch_size rs { st with skipped := st.skipped + 1 }
    else
      let st1 := { st with staged := st.staged ++ [r], existing := r.ifsc :: st.existing }
      if batch_size ≤ st1.staged.length then
        ingestLoop fail batch_size rs (commitBatch fail st1)
      else
        ingestLoop fail batch_size rs st1

/-- Lines 140-150: commit the final partial batch, if any. -/
def finalizeBatch (fail : Nat → Bool) (st : IngestState) : IngestState :=
  if st.staged.isEmpty then st else commitBatch fail st

/-- The totals reported by a run together with the resulting store. -/
structure LoadResult where
  banksInserted : Nat
  branchesInserted : Nat
  duplicatesRemoved : Nat
  skippedExisting : Nat
  db : DB
deriving DecidableEq

/-- `load_data_from_csv` on an already parsed row list: in-file IFSC
deduplication, bulk insert of the not-yet-present banks, then the batched
branch-insert loop (batch size 5000) with per-batch commit; `fail` models
which commit attempts raise. -/
def load_data_from_csv (fail : Nat → Bool) (db : DB) (rows : List CsvRow) : LoadResult :=
  let df := dedupByIfsc rows
  let duplicates_removed := rows.length - df.length
  let pairs := sortById (distinctBankPairs df)
  let existing_bank_ids := db.banks.map (fun bk => bk.id)
  let new_banks := pairs.filter (fun p => decide (p.1 ∉ existing_bank_ids))
  let banks2 := db.banks ++ new_banks.map (fun p => { id := p.1, name := p.2 })
  let existing_ifscs := db.branches.map (fun b => b.ifsc)
  let st0 : IngestState :=
    { existing := existing_ifscs, staged := [], batchIdx := 0,
      inserted := 0, skipped := 0, stored := db.branches }
  let st := finalizeBatch fail (ingestLoop fail 5000 df st0)
  { banksInserted := new_banks.length
    branchesInserted := st.inserted
    duplicatesRemoved := duplicates_removed
    skippedExisting := st.skipped
    db := { banks := banks2, branches := st.stored } }

/-- A run in which no batch insert raises. -/
def noFail : Nat → Bool := fun _ => false

/-- Split a list into consecutive chunks of `n` elements (last chunk may be
shorter); used to state what the batch loop does. -/
def chunkList {α : Type} (n : Nat) : List α → List (List α)
  | [] => []
  | x :: xs => (x :: xs.take (n - 1)) :: chunkList n (xs.drop (n - 1))
termination_by l => l.length
decreasing_by
  simp only [List.length_drop, List.length_cons]
  omega

/-- Commit a list of chunks with commit-attempt indices starting at `k`:
returns the concatenation of the successfully committed chunks (as branch
rows) and the number of rows committed. -/
def commitChunks (fail : Nat → Bool) (k : Nat) :
    List (List CsvRow) → List Branch × Nat
  | [] => ([], 0)
  | c :: cs =>
    let rest := commitChunks fail (k + 1) cs
    if fail k then rest
    else (c.map rowToBranch ++ rest.1, c.length + rest.2)

/-- The rows of the source file (after in-file deduplication) whose routing
codes are not yet present in the store: exactly the rows the batch loop
stages. -/
def newBranchRows (db : DB) (rows : List CsvRow) : List CsvRow :=
  (dedupByIfsc rows).filter
    (fun r => decide (r.ifsc ∉ db.branches.map (fun b => b.ifsc)))

/-- The distinct bank pairs of the source file whose ids are not yet present
in the store: exactly the banks the pipeline bulk-inserts. -/
def newBankPairs (db : DB) (rows : List CsvRow) : List (Int × String) :=
  (sortById (distinctBankPairs (dedupByIfsc rows))).filter
    (fun p => decide (p.1 ∉ db.banks.map (fun bk => bk.id)))

end Ingest

/-! ## Witness fixtures: a small concrete store -/

def wBank1 : Bank := ⟨1, "STATE BANK OF INDIA"⟩

def wBank2 : Bank := ⟨2, "HDFC BANK"⟩

def wBranch1 : Branch :=
  ⟨"SBIN0000001", 1, some "MUMBAI MAIN", some "FORT MUMBAI", some "MUMBAI",
   some "MUMBAI", some "MAHARASHTRA"⟩

def wBranch2 : Branch :=
  ⟨"SBIN0000002", 1, some "NEW DELHI MAIN", some "CONNAUGHT PLACE", some "NEW DELHI",
   some "NEW DELHI", some "DELHI"⟩

def wBranch3 : Branch :=
  ⟨"HDFC0000001", 2, some "KURLA", none, some "MUMBAI", some "MUMBAI", some "MAHARASHTRA"⟩

def wDB : DB := ⟨[wBank1, wBank2], [wBranch1, wBranch2, wBranch3]⟩

/-! ## Helper lemmas -/

theorem char_toNat_ofNat_valid {n : Nat} (h : n < 55296) : (Char.ofNat n).toNat = n := by
  have hv : n.isValidChar := Or.inl h
  rw [Char.ofNat, dif_pos hv]
  simp [Char.ofNatAux, Char.toNat, UInt32.toNat]

theorem toUpper_toLower (c : Char) : c.toLower.toUpper = c.toUpper := by
  by_cases h : c.toNat ≥ 65 ∧ c.toNat ≤ 90
  · have hval : (Char.ofNat (c.toNat + 32)).toNat = c.toNat + 32 :=
      char_toNat_ofNat_valid (by omega)
    have hlow : c.toLower = Char.ofNat (c.toNat + 32) := by
      rw [Char.toLower]; exact if_pos h
    rw [hlow]
    show (if (Char.ofNat (c.toNat + 32)).toNat ≥ 97 ∧ (Char.ofNat (c.toNat + 32)).toNat ≤ 122
          then Char.ofNat ((Char.ofNat (c.toNat + 32)).toNat - 32)
          else Char.ofNat (c.toNat + 32)) = c.toUpper
    rw [hval, if_pos (by omega : c.toNat + 32 ≥ 97 ∧ c.toNat + 32 ≤ 122)]
    have h32 : c.toNat + 32 - 32 = c.toNat := by omega
    rw [h32, Char.ofNat_toNat]
    rw [Char.toUpper, if_neg (by omega)]
  · rw [Char.toLower, if_neg h]

theorem upperStr_eq_of_lowerStr_eq {s t : String} (h : lowerStr s = lowerStr t) :
    upperStr s = upperStr t := by
  have hl : s.toList.map Char.toLower = t.toList.map Char.toLower := by
    have := congrArg String.toList h
    simpa [lowerStr] using this
  have key : ∀ u : List Char, u.map Char.toUpper = (u.map Char.toLower).map Char.toUpper := by
    intro u
    rw [List.map_map]
    exact (List.map_congr_left fun c _ => (toUpper_toLower c).symm)
  unfold upperStr
  rw [key s.toList, key t.toList, hl]

theorem ciContains_iff (hay q : String) :
    ciContains hay q = true ↔ (lowerStr q).toList <:+: (lowerStr hay).toList := by
  simp [ciContains]

theorem ciLike_iff (f : Option String) (q : String) :
    ciLike f q = true ↔ ∃ s, f = some s ∧ (lowerStr q).toList <:+: (lowerStr s).toList := by
  cases f <;> simp [ciLike, ciContains]

theorem ciFieldEq_iff (f : Option String) (v : String) :
    ciFieldEq f v = true ↔ ∃ s, f = some s ∧ lowerStr s = lowerStr v := by
  cases f <;> simp [ciFieldEq]

namespace Ingest

theorem commitBatch_staged (fail : Nat → Bool) (st : IngestState) :
    (commitBatch fail st).staged = [] := by
  unfold commitBatch; split <;> rfl

theorem commitBatch_batchIdx (fail : Nat → Bool) (st : IngestState) :
    (commitBatch fail st).batchIdx = st.batchIdx + 1 := by
  unfold commitBatch; split <;> rfl

theorem commitBatch_existing (fail : Nat → Bool) (st : IngestState) :
    (commitBatch fail st).existing = st.existing := by
  unfold commitBatch; split <;> rfl

theorem commitBatch_skipped (fail : Nat → Bool) (st : IngestState) :
    (commitBatch fail st).skipped = st.skipped := by
  unfold commitBatch; split <;> rfl

theorem commitBatch_stored (fail : Nat → Bool) (st : IngestState) :
    (commitBatch fail st).stored
      = if fail st.batchIdx then st.stored else st.stored ++ st.staged.map rowToBranch := by
  unfold commitBatch; split <;> simp_all

theorem commitBatch_inserted (fail : Nat → Bool) (st : IngestState) :
    (commitBatch fail st).inserted
      = if fail st.batchIdx then st.inserted else st.inserted + st.staged.length := by
  unfold commitBatch; split <;> simp_all

theorem chunkList_cons_of_full {α : Type} {N : Nat} (s t : List α)
    (hs : s.length = N) (h0 : 0 < N) :
    chunkList N (s ++ t) = s :: chunkList N t := by
  cases s with
  | nil => simp at hs; omega
  | cons x xs =>
    have hxs : xs.length = N - 1 := by simp at hs; omega
    rw [List.cons_append]
    simp only [chunkList]
    rw [List.take_left' hxs, List.drop_left' hxs]

theorem chunkList_singleton {α : Type} {N : Nat} (s : List α)
    (hne : s ≠ []) (hle : s.length ≤ N) :
    chunkList N s = [s] := by
  cases s with
  | nil => exact absurd rfl hne
  | cons x xs =>
    have h1 : xs.length ≤ N - 1 := by simp at hle; omega
    simp only [chunkList]
    rw [List.take_of_length_le h1, List.drop_eq_nil_of_le h1]
    simp [chunkList]

theorem chunkList_join {α : Type} (N : Nat) (l : List α) :
    (chunkList N l).flatten = l := by
  have main : ∀ (n : Nat) (l : List α), l.length ≤ n → (chunkList N l).flatten = l := by
    intro n
    induction n with
    | zero =>
      intro l hl
      have : l = [] := List.eq_nil_of_length_eq_zero (Nat.le_zero.mp hl)
      simp [this, chunkList]
    | succ n ih =>
      intro l hl
      cases l with
      | nil => simp [chunkList]
      | cons x xs =>
        simp only [chunkList, List.flatten_cons]
        rw [ih (xs.drop (N - 1)) (by simp [List.length_drop]; simp at hl; omega)]
        simp [List.take_append_drop]
  exact main l.length l (Nat.le_refl _)

theorem chunkList_length_le {α : Type} {N : Nat} (h0 : 0 < N) (l : List α) :
    ∀ c ∈ chunkList N l, 0 < c.length ∧ c.length ≤ N := by
  have main : ∀ (n : Nat) (l : List α), l.length ≤ n →
      ∀ c ∈ chunkList N l, 0 < c.length ∧ c.length ≤ N := by
    intro n
    induction n with
    | zero =>
      intro l hl c hc
      have : l = [] := List.eq_nil_of_length_eq_zero (Nat.le_zero.mp hl)
      simp [this, chunkList] at hc
    | succ n ih =>
      intro l hl c hc
      cases l with
      | nil => simp [chunkList] at hc
      | cons x xs =>
        simp only [chunkList, List.mem_cons] at hc
        rcases hc with rfl | hc
        · refine ⟨by simp, ?_⟩
          simp [List.length_take]
          omega
        · exact ih (xs.drop (N - 1)) (by simp at hl ⊢; omega) c hc
  exact main l.length l (Nat.le_refl _)

theorem commitChunks_noFail (k : Nat) (cs : List (List CsvRow)) :
    commitChunks noFail k cs = ((cs.flatten).map rowToBranch, cs.flatten.length) := by
  induction cs generalizing k with
  | nil => simp [commitChunks]
  | cons c cs ih => simp [commitChunks, noFail, ih]

theorem dropDupIfscAux_spec : ∀ (rows : List CsvRow) (seen : List String),
    ((dropDupIfscAux rows seen).map (fun r => r.ifsc)).Nodup ∧
    ∀ r ∈ dropDupIfscAux rows seen, r.ifsc ∉ seen := by
  intro rows
  induction rows with
  | nil => intro seen; simp [dropDupIfscAux]
  | cons r rs ih =>
    intro seen
    simp only [dropDupIfscAux]
    by_cases hmem : r.ifsc ∈ seen
    · rw [if_pos hmem]
      exact (ih seen)
    · rw [if_neg hmem]
      refine ⟨?_, ?_⟩
      · rw [List.map_cons, List.nodup_cons]
        refine ⟨?_, (ih (r.ifsc :: seen)).1⟩
        intro hin
        obtain ⟨x, hx, hxe⟩ := List.mem_map.mp hin
        exact (ih (r.ifsc :: seen)).2 x hx (hxe ▸ List.mem_cons_self _ _)
      · intro x hx
        rcases List.mem_cons.mp hx with h | h
        · exact h ▸ hmem
        · intro hc
          exact (ih (r.ifsc :: seen)).2 x h (List.mem_cons_of_mem _ hc)

theorem nodup_dedupByIfsc (rows : List CsvRow) :
    ((dedupByIfsc rows).map (fun r => r.ifsc)).Nodup :=
  (dropDupIfscAux_spec rows []).1

theorem ingestLoop_spec (fail : Nat → Bool) (N : Nat) (hN : 0 < N) :
    ∀ (rows : List CsvRow) (st : IngestState),
      (rows.map (fun r => r.ifsc)).Nodup →
      st.staged.length < N →
      ((finalizeBatch fail (ingestLoop fail N rows st)).stored
          = st.stored ++ (commitChunks fail st.batchIdx
              (chunkList N (st.staged
                ++ rows.filter (fun r => decide (r.ifsc ∉ st.existing))))).1) ∧
      ((finalizeBatch fail (ingestLoop fail N rows st)).inserted
          = st.inserted + (commitChunks fail st.batchIdx
              (chunkList N (st.staged
                ++ rows.filter (fun r => decide (r.ifsc ∉ st.existing))))).2) ∧
      ((finalizeBatch fail (ingestLoop fail N rows st)).skipped
          = st.skipped + rows.countP (fun r => decide (r.ifsc ∈ st.existing))) := by
  intro rows
  induction rows with
  | nil =>
    intro st hnd hlen
    simp only [ingestLoop, List.filter_nil, List.append_nil, List.countP_nil, Nat.add_zero]
    by_cases hs : st.staged = []
    · simp [finalizeBatch, hs, chunkList, commitChunks]
    · rw [chunkList_singleton st.staged hs (Nat.le_of_lt hlen)]
      unfold finalizeBatch
      rw [if_neg (by simp [hs])]
      by_cases hf : fail st.batchIdx <;>
        simp [commitChunks, commitBatch_stored, commitBatch_inserted, commitBatch_skipped, hf]
  | cons r rs ih =>
    intro st hnd hlen
    simp only [List.map_cons, List.nodup_cons] at hnd
    obtain ⟨hrnot, hnd2⟩ := hnd
    simp only [ingestLoop]
    by_cases hmem : r.ifsc ∈ st.existing
    · rw [if_pos hmem]
      have hfilter : (r :: rs).filter (fun x => decide (x.ifsc ∉ st.existing))
          = rs.filter (fun x => decide (x.ifsc ∉ st.existing)) := by
        simp [List.filter_cons, hmem]
      have hcount : (r :: rs).countP (fun x => decide (x.ifsc ∈ st.existing))
          = rs.countP (fun x => decide (x.ifsc ∈ st.existing)) + 1 := by
        simp [List.countP_cons, hmem]
      obtain ⟨h1, h2, h3⟩ := ih { st with skipped := st.skipped + 1 } hnd2
        (by simpa using hlen)
      refine ⟨?_, ?_, ?_⟩
      · rw [hfilter]; simpa using h1
      · rw [hfilter]; simpa using h2
      · rw [hcount]
        have heq : st.skipped + (rs.countP (fun x => decide (x.ifsc ∈ st.existing)) + 1)
            = st.skipped + 1 + rs.countP (fun x => decide (x.ifsc ∈ st.existing)) := by
          omega
        rw [heq]; simpa using h3
    · rw [if_neg hmem]
      have hfilter : (r :: rs).filter (fun x => decide (x.ifsc ∉ st.existing))
          = r :: rs.filter (fun x => decide (x.ifsc ∉ st.existing)) := by
        simp [List.filter_cons, hmem]
      have hcount : (r :: rs).countP (fun x => decide (x.ifsc ∈ st.existing))
          = rs.countP (fun x => decide (x.ifsc ∈ st.existing)) := by
        simp [List.countP_cons, hmem]
      have hne : ∀ x ∈ rs, x.ifsc ≠ r.ifsc := by
        intro x hx he
        exact hrnot (he ▸ List.mem_map_of_mem (fun y => y.ifsc) hx)
      have hfcong : rs.filter (fun x => decide (x.ifsc ∉ r.ifsc :: st.existing))
          = rs.filter (fun x => decide (x.ifsc ∉ st.existing)) := by
        apply List.filter_congr
        intro x hx
        simp [List.mem_cons, hne x hx]
      have hccong : rs.countP (fun x => decide (x.ifsc ∈ r.ifsc :: st.existing))
          = rs.countP (fun x => decide (x.ifsc ∈ st.existing)) := by
        rw [List.countP_eq_length_filter, List.countP_eq_length_filter]
        congr 1
        apply List.filter_congr
        intro x hx
        simp [List.mem_cons, hne x hx]
      rw [hfilter, hcount]
      by_cases hfull : N ≤ st.staged.length + 1
      · have hlen1 : st.staged.length + 1 = N := by omega
        rw [if_pos (by simpa using hfull)]
        obtain ⟨h1, h2, h3⟩ := ih
          (commitBatch fail { st with staged := st.staged ++ [r],
                                      existing := r.ifsc :: st.existing })
          hnd2 (by rw [commitBatch_staged]; simpa using hN)
        simp only [commitBatch_staged, commitBatch_batchIdx, commitBatch_existing,
          commitBatch_skipped, List.nil_append] at h1 h2 h3
        rw [hfcong] at h1 h2
        rw [hccong] at h3
        rw [commitBatch_stored] at h1
        rw [commitBatch_inserted] at h2
        have hassoc : st.staged ++ r :: rs.filter (fun x => decide (x.ifsc ∉ st.existing))
            = (st.staged ++ [r]) ++ rs.filter (fun x => decide (x.ifsc ∉ st.existing)) := by
          simp
        rw [hassoc, chunkList_cons_of_full _ _ (by simpa using hlen1) hN]
        refine ⟨?_, ?_, ?_⟩
        · rw [h1]
          by_cases hf : fail st.batchIdx <;>
            simp [commitChunks, hf, List.append_assoc]
        · rw [h2]
          by_cases hf : fail st.batchIdx
          · simp [commitChunks, hf]
          · simp [commitChunks, hf]
            omega
        · exact h3
      · rw [if_neg (by simpa using hfull)]
        obtain ⟨h1, h2, h3⟩ := ih
          { st with staged := st.staged ++ [r], existing := r.ifsc :: st.existing }
          hnd2 (by simp; omega)
        simp only at h1 h2 h3
        rw [hfcong] at h1 h2
        rw [hccong] at h3
        refine ⟨?_, ?_, ?_⟩
        · rw [h1]
          congr 2
          simp
        · rw [h2]
          congr 3
          simp
        · exact h3

theorem mem_insertById (p q : Int × String) (l : List (Int × String)) :
    q ∈ insertById p l ↔ q = p ∨ q ∈ l := by
  induction l with
  | nil => simp [insertById]
  | cons x xs ih =>
    unfold insertById
    by_cases hle : p.1 ≤ x.1
    · rw [if_pos hle]
      simp [List.mem_cons]
    · rw [if_neg hle]
      simp only [List.mem_cons, ih]
      tauto

theorem mem_sortById (l : List (Int × String)) (p : Int × String) :
    p ∈ sortById l ↔ p ∈ l := by
  induction l with
  | nil => simp [sortById]
  | cons x xs ih =>
    simp only [sortById, List.foldr_cons] at ih ⊢
    rw [mem_insertById]
    simp [ih, List.mem_cons]

theorem load_spec (fail : Nat → Bool) (db : DB) (rows : List CsvRow) :
    ((load_data_from_csv fail db rows).db.banks
        = db.banks ++ (newBankPairs db rows).map (fun p => { id := p.1, name := p.2 })) ∧
    ((load_data_from_csv fail db rows).banksInserted = (newBankPairs db rows).length) ∧
    ((load_data_from_csv fail db rows).db.branches
        = db.branches ++ (commitChunks fail 0 (chunkList 5000 (newBranchRows db rows))).1) ∧
    ((load_data_from_csv fail db rows).branchesInserted
        = (commitChunks fail 0 (chunkList 5000 (newBranchRows db rows))).2) ∧
    ((load_data_from_csv fail db rows).skippedExisting
        = (dedupByIfsc rows).countP
            (fun r => decide (r.ifsc ∈ db.branches.map (fun b => b.ifsc)))) ∧
    ((load_data_from_csv fail db rows).duplicatesRemoved
        = rows.length - (dedupByIfsc rows).length) := by
  obtain ⟨h1, h2, h3⟩ := ingestLoop_spec fail 5000 (by omega) (dedupByIfsc rows)
    { existing := db.branches.map (fun b => b.ifsc), staged := [], batchIdx := 0,
      inserted := 0, skipped := 0, stored := db.branches }
    (nodup_dedupByIfsc rows) (by simp)
  simp only [List.nil_append, Nat.zero_add] at h1 h2 h3
  refine ⟨?_, ?_, ?_, ?_, ?_, ?_⟩
  · simp only [load_data_from_csv, newBankPairs]
  · simp only [load_data_from_csv, newBankPairs]
  · simp only [load_data_from_csv, newBranchRows]
    exact h1
  · simp only [load_data_from_csv, newBranchRows]
    exact h2
  · simp only [load_data_from_csv]
    exact h3
  · simp only [load_data_from_csv]

theorem db_ext (d1 d2 : DB) (h1 : d1.banks = d2.banks) (h2 : d1.branches = d2.branches) :
    d1 = d2 := by
  cases d1; cases d2; simp_all

end Ingest

/-! ## Claim theorems -/

/-- C1: for every combination of the optional branch filters, the branch
count operation returns exactly the length of the branch list operation
invoked with the same filters, `skip = 0` and an unbounded limit. -/
theorem count_eq_length_of_unbounded_list (db : DB) (bank_id : Option Int)
    (bank_name city district state search : Option String) :
    Crud.get_branches_count db bank_id bank_name city district state search
      = (Crud.get_branches db 0 none bank_id bank_name city district state search).length :=
  rfl

/-- C10: a falsy filter argument (`bank_id = 0`, or `""` for any string
filter) is treated exactly like an absent filter by both the branch list
and the branch count operations. -/
theorem falsy_filters_treated_as_absent (db : DB) (skip : Nat) (limit : Option Nat)
    (bank_id : Option Int) (bank_name city district state search : Option String) :
    (Crud.get_branches db skip limit (some 0) bank_name city district state search
      = Crud.get_branches db skip limit none bank_name city district state search) ∧
    (Crud.get_branches db skip limit bank_id (some "") city district state search
      = Crud.get_branches db skip limit bank_id none city district state search) ∧
    (Crud.get_branches db skip limit bank_id bank_name (some "") district state search
      = Crud.get_branches db skip limit bank_id bank_name none district state search) ∧
    (Crud.get_branches db skip limit bank_id bank_name city (some "") state search
      = Crud.get_branches db skip limit bank_id bank_name city none state search) ∧
    (Crud.get_branches db skip limit bank_id bank_name city district (some "") search
      = Crud.get_branches db skip limit bank_id bank_name city district none search) ∧
    (Crud.get_branches db skip limit bank_id bank_name city district state (some "")
      = Crud.get_branches db skip limit bank_id bank_name city district state none) ∧
    (Crud.get_branches_count db (some 0) bank_name city district state search
      = Crud.get_branches_count db none bank_name city district state search) ∧
    (Crud.get_branches_count db bank_id (some "") city district state search
      = Crud.get_branches_count db bank_id none city district state search) ∧
    (Crud.get_branches_count db bank_id bank_name (some "") district state search
      = Crud.get_branches_count db bank_id bank_name none district state search) ∧
    (Crud.get_branches_count db bank_id bank_name city (some "") state search
      = Crud.get_branches_count db bank_id bank_name city none state search) ∧
    (Crud.get_branches_count db bank_id bank_name city district (some "") search
      = Crud.get_branches_count db bank_id bank_name city district none search) ∧
    (Crud.get_branches_count db bank_id bank_name city district state (some "")
      = Crud.get_branches_count db bank_id bank_name city district state none) :=
  ⟨rfl, rfl, rfl, rfl, rfl, rfl, rfl, rfl, rfl, rfl, rfl, rfl⟩

/-- C5: with no filters the branch list operation returns the full branch
table bounded only by `skip` and `limit`, and with any filter combination
matching no stored row it returns the empty list (a value, not an error). -/
theorem no_filters_full_table_and_empty_match_safe (db : DB) (skip : Nat)
    (limit : Option Nat) (bank_id : Option Int)
    (bank_name city district state search : Option String) :
    (Crud.get_branches db skip limit none none none none none none
      = applyPage skip limit db.branches) ∧
    ((∀ b ∈ db.branches,
        Crud.branchQueryPred db.banks bank_id bank_name city district state search b = false) →
      Crud.get_branches db skip limit bank_id bank_name city district state search = []) := by
  constructor
  · unfold Crud.get_branches
    congr 1
    exact List.filter_eq_self.mpr fun b _ => rfl
  · intro hnone
    unfold Crud.get_branches
    rw [List.filter_eq_nil_iff.mpr (by simpa using hnone)]
    cases limit <;> simp [applyPage]

/-- C5 witness: on the concrete store, no filters lists the whole table and
the never-matching city filter "NOWHERE" yields the empty list. -/
theorem no_filters_full_table_and_empty_match_safe_witness :
    Crud.get_branches wDB 0 none none none none none none none = wDB.branches ∧
    Crud.get_branches wDB 0 none none none (some "NOWHERE") none none none = [] := by
  constructor
  · exact (no_filters_full_table_and_empty_match_safe wDB 0 none none none none none
      none none).1
  · exact (no_filters_full_table_and_empty_match_safe wDB 0 none none none
      (some "NOWHERE") none none none).2 (by decide)

/-- C7: branch lookup by routing code uppercases its input, so two inputs
differing only in letter case (equal after lowercasing) give identical
lookup results. -/
theorem get_branch_case_insensitive (db : DB) (s t : String)
    (h : lowerStr s = lowerStr t) :
    Crud.get_branch db s = Crud.get_branch db t := by
  unfold Crud.get_branch
  rw [upperStr_eq_of_lowerStr_eq h]

/-- C7 witness: `get_branch "sbin0000001"` and `get_branch "SBIN0000001"`
agree on the concrete store (and indeed return the stored record). -/
theorem get_branch_case_insensitive_witness :
    Crud.get_branch wDB "sbin0000001" = Crud.get_branch wDB "SBIN0000001" ∧
    Crud.get_branch wDB "sbin0000001" = some wBranch1 := by
  refine ⟨get_branch_case_insensitive wDB "sbin0000001" "SBIN0000001" (by decide), ?_⟩
  decide

/-- C8: the branch-by-routing-code endpoint rejects every input whose length
is not 11 with a validation error that does not depend on the store (the
engine is never consulted), and maps a well-formed input that matches no
stored branch to a NotFound value. -/
theorem ifsc_endpoint_validation (db : DB) (s : String) :
    (s.length ≠ 11 →
      Api.get_branch db s
        = Except.error (ApiError.validation "IFSC code must be exactly 11 characters")) ∧
    (s.length ≠ 11 → ∀ db2 : DB, Api.get_branch db s = Api.get_branch db2 s) ∧
    (s.length = 11 → Crud.get_branch db s = none →
      Api.get_branch db s = Except.error (ApiError.notFound "Branch not found")) ∧
    (s.length = 11 → ∀ b : Branch, Crud.get_branch db s = some b →
      Api.get_branch db s = Except.ok b) := by
  refine ⟨fun hlen => ?_, fun hlen db2 => ?_, fun hlen hnone => ?_, fun hlen b hsome => ?_⟩
  · unfold Api.get_branch
    rw [if_pos hlen]
  · unfold Api.get_branch
    rw [if_pos hlen, if_pos hlen]
  · unfold Api.get_branch
    rw [if_neg (by simp [hlen]), hnone]
  · unfold Api.get_branch
    rw [if_neg (by simp [hlen]), hsome]

/-- C3: a supplied institution-name, city, district or state filter matches
a branch if and only if the corresponding field (the joined institution's
name for the institution-name filter), lowercased, is exactly equal to the
lowercased filter value — in both the list and the count predicates. -/
theorem attr_filters_exact_ci (banks : List Bank) (b : Branch) (v : String) (hv : v ≠ "") :
    (Crud.branchQueryPred banks none (some v) none none none none b = true ↔
      ∃ bk ∈ banks, bk.id = b.bank_id ∧ lowerStr bk.name = lowerStr v) ∧
    (Crud.branchQueryPred banks none none (some v) none none none b = true ↔
      ∃ s, b.city = some s ∧ lowerStr s = lowerStr v) ∧
    (Crud.branchQueryPred banks none none none (some v) none none b = true ↔
      ∃ s, b.district = some s ∧ lowerStr s = lowerStr v) ∧
    (Crud.branchQueryPred banks none none none none (some v) none b = true ↔
      ∃ s, b.state = some s ∧ lowerStr s = lowerStr v) ∧
    (Crud.branchCountPred banks none (some v) none none none none b = true ↔
      ∃ bk ∈ banks, bk.id = b.bank_id ∧ lowerStr bk.name = lowerStr v) ∧
    (Crud.branchCountPred banks none none (some v) none none none b = true ↔
      ∃ s, b.city = some s ∧ lowerStr s = lowerStr v) ∧
    (Crud.branchCountPred banks none none none (some v) none none b = true ↔
      ∃ s, b.district = some s ∧ lowerStr s = lowerStr v) ∧
    (Crud.branchCountPred banks none none none none (some v) none b = true ↔
      ∃ s, b.state = some s ∧ lowerStr s = lowerStr v) := by
  refine ⟨?_, ?_, ?_, ?_, ?_, ?_, ?_, ?_⟩ <;>
    simp [Crud.branchQueryPred, Crud.branchCountPred, optStrTruthy, optIntTruthy, hv,
      ciFieldEq_iff, List.any_eq_true, and_assoc]

/-- C3 witness: the filter "Mumbai" matches the stored city "MUMBAI" via
exact case-insensitive equality. -/
theorem attr_filters_exact_ci_witness :
    Crud.branchQueryPred wDB.banks none none (some "Mumbai") none none none wBranch1 = true :=
  ((attr_filters_exact_ci wDB.banks wBranch1 "Mumbai" (by decide)).2.1).mpr
    ⟨"MUMBAI", by decide, by decide⟩

/-- C4: a supplied search term matches a branch iff it occurs
case-insensitively as a substring of the branch name, the address or the
routing code (in both branch predicates), and matches an institution iff it
occurs case-insensitively as a substring of the institution's name. -/
theorem search_term_substring (banks : List Bank) (b : Branch) (bk : Bank)
    (q : String) (hq : q ≠ "") :
    (Crud.branchQueryPred banks none none none none none (some q) b = true ↔
      ((∃ s, b.branch = some s ∧ (lowerStr q).toList <:+: (lowerStr s).toList) ∨
       (∃ s, b.address = some s ∧ (lowerStr q).toList <:+: (lowerStr s).toList) ∨
       (lowerStr q).toList <:+: (lowerStr b.ifsc).toList)) ∧
    (Crud.branchCountPred banks none none none none none (some q) b = true ↔
      ((∃ s, b.branch = some s ∧ (lowerStr q).toList <:+: (lowerStr s).toList) ∨
       (∃ s, b.address = some s ∧ (lowerStr q).toList <:+: (lowerStr s).toList) ∨
       (lowerStr q).toList <:+: (lowerStr b.ifsc).toList)) ∧
    (Crud.bankSearchPred (some q) bk = true ↔
      (lowerStr q).toList <:+: (lowerStr bk.name).toList) := by
  refine ⟨?_, ?_, ?_⟩ <;>
    simp [Crud.branchQueryPred, Crud.branchCountPred, Crud.bankSearchPred, optStrTruthy,
      optIntTruthy, hq, ciLike_iff, ciContains_iff, or_assoc]

/-- C4 witness: the search term "connaught" matches the branch whose address
is "CONNAUGHT PLACE". -/
theorem search_term_substring_witness :
    Crud.branchQueryPred wDB.banks none none none none none (some "connaught") wBranch2
      = true :=
  ((search_term_substring wDB.banks wBranch2 wBank2 "connaught" (by decide)).1).mpr
    (Or.inr (Or.inl ⟨"CONNAUGHT PLACE", by decide, by decide⟩))

/-- C6 counterexample: the bank listing endpoint is one of the paginated
listing endpoints, yet it does not enforce `0 ≤ page_size ≤ 1000` and does
not translate `page_size == 0` into an unbounded query — it rejects both
`page_size = 0` and `page_size = 500` with validation errors. -/
theorem pagination_boundary_counterexample :
    Api.list_banks wDB 1 0 none
      = Except.error (ApiError.validation "page_size must be at least 1") ∧
    Api.list_banks wDB 1 500 none
      = Except.error (ApiError.validation "page_size must be at most 100") :=
  ⟨rfl, rfl⟩

/-- C6 amended: the branch listing endpoint enforces `page ≥ 1` and
`0 ≤ page_size ≤ 1000`, translates `page_size == 0` into an unbounded query
with `skip = 0`, and otherwise uses `skip = (page-1)*page_size` and
`limit = page_size`; the bank listing endpoint enforces `page ≥ 1` and
`1 ≤ page_size ≤ 100` and always uses `skip = (page-1)*page_size`,
`limit = page_size` (no unbounded sentinel). -/
theorem pagination_boundary_amended (db : DB) (page page_size : Int)
    (bank_id : Option Int) (bank_name city district state search qsearch : Option String) :
    (1 ≤ page → 0 ≤ page_size → page_size ≤ 1000 →
      Api.list_branches db page page_size bank_id bank_name city district state search
        = Except.ok (if page_size = 0 then
              Crud.get_branches db 0 none bank_id bank_name city district state search
            else
              Crud.get_branches db ((page - 1) * page_size).toNat (some page_size.toNat)
                bank_id bank_name city district state search)) ∧
    ((page < 1 ∨ page_size < 0 ∨ 1000 < page_size) →
      ∃ m, Api.list_branches db page page_size bank_id bank_name city district state search
        = Except.error (ApiError.validation m)) ∧
    (1 ≤ page → 1 ≤ page_size → page_size ≤ 100 →
      Api.list_banks db page page_size qsearch
        = Except.ok (Crud.get_banks db ((page - 1) * page_size).toNat page_size.toNat
            qsearch)) ∧
    ((page < 1 ∨ page_size < 1 ∨ 100 < page_size) →
      ∃ m, Api.list_banks db page page_size qsearch
        = Except.error (ApiError.validation m)) := by
  refine ⟨fun h1 h2 h3 => ?_, fun h => ?_, fun h1 h2 h3 => ?_, fun h => ?_⟩
  · unfold Api.list_branches
    rw [if_neg (by omega), if_neg (by omega), if_neg (by omega)]
    split <;> rfl
  · unfold Api.list_branches
    split_ifs <;> first | exact ⟨_, rfl⟩ | omega
  · unfold Api.list_banks
    rw [if_neg (by omega), if_neg (by omega), if_neg (by omega)]
  · unfold Api.list_banks
    split_ifs <;> first | exact ⟨_, rfl⟩ | omega

/-- C6 amended witness: `page_size = 0` on the branch endpoint returns the
whole table unbounded; `page = 2, page_size = 1` on the bank endpoint
returns the second bank. -/
theorem pagination_boundary_amended_witness :
    Api.list_branches wDB 1 0 none none none none none none = Except.ok wDB.branches ∧
    Api.list_banks wDB 2 1 none = Except.ok [wBank2] := by
  constructor
  · have h := (pagination_boundary_amended wDB 1 0 none none none none none none
      none).1 (by decide) (by decide) (by decide)
    rw [h]; rfl
  · have h := (pagination_boundary_amended wDB 2 1 none none none none none none
      none).2.2.1 (by decide) (by decide) (by decide)
    rw [h]; rfl

/-- C8 witness: "SHORT" is rejected with the validation error and the
unknown 11-character code "XXXX0000000" yields NotFound on the concrete
store. -/
theorem ifsc_endpoint_validation_witness :
    Api.get_branch wDB "SHORT"
      = Except.error (ApiError.validation "IFSC code must be exactly 11 characters") ∧
    Api.get_branch wDB "XXXX0000000"
      = Except.error (ApiError.notFound "Branch not found") := by
  constructor
  · exact (ifsc_endpoint_validation wDB "SHORT").1 (by decide)
  · exact (ifsc_endpoint_validation wDB "XXXX0000000").2.2.1 (by decide) (by decide)

/-- C9: branch rows are accumulated into batches of at most 5000 rows (all
full except possibly the last), each batch is committed independently, a
failing batch contributes none of its rows to the store and is simply
skipped, and all remaining batches are still processed (the store receives
exactly the concatenation of the successfully committed chunks). -/
theorem ingestion_batches_independent (fail : Nat → Bool) (db : DB)
    (rows : List Ingest.CsvRow) :
    ((Ingest.load_data_from_csv fail db rows).db.branches
        = db.branches ++ (Ingest.commitChunks fail 0
            (Ingest.chunkList 5000 (Ingest.newBranchRows db rows))).1) ∧
    ((Ingest.load_data_from_csv fail db rows).branchesInserted
        = (Ingest.commitChunks fail 0
            (Ingest.chunkList 5000 (Ingest.newBranchRows db rows))).2) ∧
    ((Ingest.chunkList 5000 (Ingest.newBranchRows db rows)).all
        (fun c => decide (0 < c.length) && decide (c.length ≤ 5000)) = true) := by
  obtain ⟨-, -, h3, h4, -, -⟩ := Ingest.load_spec fail db rows
  refine ⟨h3, h4, ?_⟩
  rw [List.all_eq_true]
  intro c hc
  obtain ⟨hp, hl⟩ := Ingest.chunkList_length_le (by omega) (Ingest.newBranchRows db rows) c hc
  simp [hp, hl]

/-- C2: a second ingestion run over the same rows, against the store the
first run produced, inserts zero institutions and zero branches, leaves the
store exactly as the first run left it, reports the same within-file
duplicate count as the first run, and counts every deduplicated data row as
already existing/skipped. -/
theorem ingestion_idempotent (db : DB) (rows : List Ingest.CsvRow) :
    ((Ingest.load_data_from_csv Ingest.noFail
        (Ingest.load_data_from_csv Ingest.noFail db rows).db rows).banksInserted = 0) ∧
    ((Ingest.load_data_from_csv Ingest.noFail
        (Ingest.load_data_from_csv Ingest.noFail db rows).db rows).branchesInserted = 0) ∧
    ((Ingest.load_data_from_csv Ingest.noFail
        (Ingest.load_data_from_csv Ingest.noFail db rows).db rows).db
      = (Ingest.load_data_from_csv Ingest.noFail db rows).db) ∧
    ((Ingest.load_data_from_csv Ingest.noFail
        (Ingest.load_data_from_csv Ingest.noFail db rows).db rows).duplicatesRemoved
      = (Ingest.load_data_from_csv Ingest.noFail db rows).duplicatesRemoved) ∧
    ((Ingest.load_data_from_csv Ingest.noFail
        (Ingest.load_data_from_csv Ingest.noFail db rows).db rows).skippedExisting
      = (Ingest.dedupByIfsc rows).length) := by
  obtain ⟨hb1, hbc1, hr1, hrc1, hsk1, hd1⟩ := Ingest.load_spec Ingest.noFail db rows
  obtain ⟨hb2, hbc2, hr2, hrc2, hsk2, hd2⟩ := Ingest.load_spec Ingest.noFail
    (Ingest.load_data_from_csv Ingest.noFail db rows).db rows
  have hbr1 : (Ingest.load_data_from_csv Ingest.noFail db rows).db.branches
      = db.branches ++ (Ingest.newBranchRows db rows).map Ingest.rowToBranch := by
    rw [hr1, Ingest.commitChunks_noFail]
    simp [Ingest.chunkList_join]
  have hpairs : ∀ p ∈ Ingest.sortById (Ingest.distinctBankPairs (Ingest.dedupByIfsc rows)),
      p.1 ∈ (Ingest.load_data_from_csv Ingest.noFail db rows).db.banks.map
        (fun bk => bk.id) := by
    intro p hp
    rw [hb1, List.map_append]
    by_cases hin : p.1 ∈ db.banks.map (fun bk => bk.id)
    · exact List.mem_append_left _ hin
    · apply List.mem_append_right
      have hpn : p ∈ Ingest.newBankPairs db rows :=
        List.mem_filter.mpr ⟨hp, by simpa using hin⟩
      rw [List.map_map]
      exact List.mem_map.mpr ⟨p, hpn, rfl⟩
  have hnew2banks : Ingest.newBankPairs
      (Ingest.load_data_from_csv Ingest.noFail db rows).db rows = [] := by
    apply List.filter_eq_nil_iff.mpr
    intro p hp
    simpa using hpairs p hp
  have hifscs : ∀ r ∈ Ingest.dedupByIfsc rows,
      r.ifsc ∈ (Ingest.load_data_from_csv Ingest.noFail db rows).db.branches.map
        (fun b => b.ifsc) := by
    intro r hr
    rw [hbr1, List.map_append]
    by_cases hin : r.ifsc ∈ db.branches.map (fun b => b.ifsc)
    · exact List.mem_append_left _ hin
    · apply List.mem_append_right
      have hrn : r ∈ Ingest.newBranchRows db rows :=
        List.mem_filter.mpr ⟨hr, by simpa using hin⟩
      rw [List.map_map]
      exact List.mem_map.mpr ⟨r, hrn, rfl⟩
  have hnew2 : Ingest.newBranchRows
      (Ingest.load_data_from_csv Ingest.noFail db rows).db rows = [] := by
    apply List.filter_eq_nil_iff.mpr
    intro r hr
    simpa using hifscs r hr
  refine ⟨?_, ?_, ?_, ?_, ?_⟩
  · rw [hbc2, hnew2banks]
    rfl
  · rw [hrc2, hnew2]
    simp [Ingest.chunkList, Ingest.commitChunks]
  · apply Ingest.db_ext
    · rw [hb2, hnew2banks]
      simp
    · rw [hr2, hnew2]
      simp [Ingest.chunkList, Ingest.commitChunks]
  · rw [hd2, hd1]
  · rw [hsk2]
    rw [List.countP_eq_length]
    intro r hr
    simpa using hifscs r hr

end BankApi
